import Mathlib

/-!
Shallow embedding of the SMBus post-box reader (src/src/smbpbisensor.rs).

The Rust program implements one operation: read a post-box register block
over I2C.  `smbus_read_post_box` encodes the 16-bit offset into 1 or 2
big-endian address bytes, issues one combined write-then-read transfer and
checks that both messages completed.  `main`'s `Read` branch opens the
device node `/dev/i2c-{bus}`, checks `size <= MAX_POST_BOX_SIZE`, calls
`smbus_read_post_box` on the first `size` bytes of a zeroed 8-byte buffer
and prints the whole buffer.

Bytes are modelled as `Nat` (values < 256 where it matters), buffers as
`List Nat`, and the I2C transport as an explicit state-passing function so
that the number of transfer invocations and the messages passed are
observable.  Fallible steps return `Except String`, with `anyhow` context
wrapping modelled as prefixing the context string and `": "`.
-/

namespace SmbPbi

/-- An I2C message as built by the Rust code: a write message carrying a
byte sequence, or a read message characterised by the length of the buffer
it must fill. -/
inductive I2CMessage where
  | write (data : List Nat)
  | read (len : Nat)
deriving DecidableEq, Repr

/-- Result of one call to the transport's `transfer`: an error, or the
number of messages completed together with the bytes deposited in the read
message's buffer. -/
def TransferResult : Type := Except String (Nat × List Nat)

/-- A transport: state-passing transfer function.  The state lets stub
transports record invocations. -/
def TransferFn (σ : Type) : Type := σ → List I2CMessage → σ × TransferResult

/-- Constant `MAX_POST_BOX_SIZE` from the source: `size_of::<u64>()` = 8. -/
def MAX_POST_BOX_SIZE : Nat := 8

/-- The address-byte encoding performed at the top of `smbus_read_post_box`:
one byte equal to `offset` when `offset <= u8::MAX`, otherwise the two
big-endian bytes `offset.to_be_bytes()` of the 16-bit offset. -/
def encodeOffset (offset : Nat) : List Nat :=
  if offset ≤ 255 then [offset] else [offset / 256, offset % 256]

/-- Value of a byte sequence read as a big-endian integer. -/
def beBytesVal (l : List Nat) : Nat :=
  l.foldl (fun a b => 256 * a + b) 0

/-- Function `smbus_read_post_box` from the source: build the address bytes, issue
one transfer with a write message holding them followed by a read message
sized to the output buffer, wrap a transport error with
"Unable to complete i2c transfer", and require that all `m = 2` messages
were transmitted, otherwise fail with "Only {n}/{m} messages were
transmitted successfully ".  Returns the transport state after the (single)
transfer together with the outcome; on success the outcome carries the
bytes the transport deposited in the read buffer. -/
def smbus_read_post_box {σ : Type} (transfer : TransferFn σ) (s : σ)
    (offset : Nat) (out : List Nat) : σ × Except String (List Nat) :=
  let offsetBytes := encodeOffset offset
  let messages : List I2CMessage :=
    [I2CMessage.write offsetBytes, I2CMessage.read out.length]
  let m := messages.length
  match transfer s messages with
  | (s', Except.error e) =>
      (s', Except.error ("Unable to complete i2c transfer: " ++ e))
  | (s', Except.ok (n, data)) =>
      if n = m then (s', Except.ok data)
      else
        (s', Except.error ("Only " ++ Nat.repr n ++ "/" ++ Nat.repr m ++
          " messages were transmitted successfully "))

/-- The device node path `format!("/dev/i2c-{bus}")` from `main`. -/
def devicePath (bus : Nat) : String := "/dev/i2c-" ++ Nat.repr bus

/-- The `with_context` wrapping of an open failure in `main`:
"Unable to open {bus_path} @{address}". -/
def openCtx (bus_path : String) (address : Nat) (e : String) : String :=
  "Unable to open " ++ bus_path ++ " @" ++ Nat.repr address ++ ": " ++ e

/-- The `with_context` wrapping of a read failure in `main`:
"Unable to read post-box at +{offset}, size={size}". -/
def readCtx (offset size : Nat) (e : String) : String :=
  "Unable to read post-box at +" ++ Nat.repr offset ++ ", size=" ++
    Nat.repr size ++ ": " ++ e

/-- The ensure message in `main` (with the source's typo "if"):
"Maximum post-box size if {MAX_POST_BOX_SIZE} bytes". -/
def sizeBoundsMsg : String :=
  "Maximum post-box size if " ++ Nat.repr MAX_POST_BOX_SIZE ++ " bytes"

/-- The `Subcommand::Read` branch of `main`: open the device at
`/dev/i2c-{bus}` (failure wrapped with `openCtx`), zero-initialize an
8-byte buffer, ensure `size <= MAX_POST_BOX_SIZE`, run
`smbus_read_post_box` on the first `size` bytes (failure wrapped with
`readCtx`), and on success produce the full 8-byte buffer that `main`
prints.  The first component is the transport's final state when the
device was opened (`none` when opening failed), so that stub transports
can observe whether and how often `transfer` ran. -/
def mainRead {σ : Type} (openDev : String → Nat → Except String (σ × TransferFn σ))
    (bus address offset size : Nat) : Option σ × Except String (List Nat) :=
  let bus_path := devicePath bus
  match openDev bus_path address with
  | Except.error e => (none, Except.error (openCtx bus_path address e))
  | Except.ok (s, transfer) =>
      let value : List Nat := List.replicate MAX_POST_BOX_SIZE 0
      if size ≤ MAX_POST_BOX_SIZE then
        match smbus_read_post_box transfer s offset (value.take size) with
        | (s', Except.error e) => (some s', Except.error (readCtx offset size e))
        | (s', Except.ok buf) => (some s', Except.ok (buf ++ value.drop size))
      else (some s, Except.error sizeBoundsMsg)

/-- A stub transport that appends every message list it is handed to a log
and otherwise behaves as the pure transfer function `f`. -/
def logWrap (f : List I2CMessage → TransferResult) :
    TransferFn (List (List I2CMessage)) :=
  fun log msgs => (log ++ [msgs], f msgs)

/-- Decimal reading of a string's characters, used to recover a bus index
from the device node path (proof device for injectivity of the path). -/
def decodeDec (s : String) : Nat :=
  s.data.foldl (fun a c => 10 * a + (c.toNat - 48)) 0

/-- Helper: `smbus_read_post_box` on a logging transport appends exactly
one entry to the log — the two-message list it hands to `transfer` —
whatever the transfer returns. -/
theorem smbus_log_eq (f : List I2CMessage → TransferResult)
    (log : List (List I2CMessage)) (offset : Nat) (out : List Nat) :
    (smbus_read_post_box (logWrap f) log offset out).1 =
      log ++ [[I2CMessage.write (encodeOffset offset), I2CMessage.read out.length]] := by
  simp only [smbus_read_post_box, logWrap]
  rcases hf : f [I2CMessage.write (encodeOffset offset), I2CMessage.read out.length]
    with e | ⟨n, data⟩
  · rfl
  · by_cases hn : n = 2 <;> simp [hn]

set_option maxRecDepth 8192 in
/-- Helper: decimal decoding is a left inverse of `Nat.repr` on bus
indices (0–255). -/
theorem decodeDec_repr : ∀ n, n < 256 → decodeDec (Nat.repr n) = n := by
  decide

/-- Helper: the read-failure context string never coincides with the size
bounds message (their first characters differ). -/
theorem readCtx_ne_sizeBoundsMsg (offset size : Nat) (e : String) :
    readCtx offset size e ≠ sizeBoundsMsg := by
  intro h
  have hd : (readCtx offset size e).data = sizeBoundsMsg.data := congrArg String.data h
  simp only [readCtx, sizeBoundsMsg, String.data_append, List.append_assoc,
    List.cons_append] at hd
  injection hd with hc _
  exact absurd hc (by decide)

/-- C1: the offset encoder emits one byte equal to `offset` when
`offset ≤ 255` and otherwise the two big-endian bytes of `offset`; the
big-endian value of the emitted bytes is always `offset`, every emitted
byte fits in 8 bits, and the length is 1 iff `offset ≤ 255`, else 2. -/
theorem encodeOffset_correct (offset : Nat) (h : offset < 65536) :
    (offset ≤ 255 → encodeOffset offset = [offset]) ∧
    (255 < offset → encodeOffset offset = [offset / 256, offset % 256]) ∧
    beBytesVal (encodeOffset offset) = offset ∧
    (∀ b ∈ encodeOffset offset, b < 256) ∧
    ((encodeOffset offset).length = 1 ↔ offset ≤ 255) ∧
    ((encodeOffset offset).length = 2 ↔ 255 < offset) := by
  by_cases hle : offset ≤ 255
  · refine ⟨fun _ => ?_, fun hgt => absurd hle (by omega), ?_, ?_, ?_, ?_⟩ <;>
      simp [encodeOffset, hle, beBytesVal] <;> omega
  · refine ⟨fun hc => absurd hc hle, fun _ => ?_, ?_, ?_, ?_, ?_⟩ <;>
      simp [encodeOffset, hle, beBytesVal] <;> omega

/-- Witness for C1 at the spec's scenario B input `offset = 0x1234`:
the encoder produces `[0x12, 0x34]`. -/
theorem encodeOffset_correct_witness :
    encodeOffset 4660 = [18, 52] ∧ beBytesVal (encodeOffset 4660) = 4660 ∧
    ((encodeOffset 4660).length = 1 ↔ 4660 ≤ 255) :=
  ⟨((encodeOffset_correct 4660 (by decide)).2.1 (by decide)).trans (by decide),
   (encodeOffset_correct 4660 (by decide)).2.2.1,
   (encodeOffset_correct 4660 (by decide)).2.2.2.2.1⟩

/-- C4: one call to `smbus_read_post_box` invokes the transport's transfer
exactly once, handing it exactly two messages in that one call: first a
write message carrying exactly the encoded address bytes, then a read
message sized to the output buffer.  Stated via the logging stub: the log
grows by exactly that one message list, whatever the transfer returns. -/
theorem smbus_read_post_box_transfers_once (f : List I2CMessage → TransferResult)
    (log : List (List I2CMessage)) (offset : Nat) (out : List Nat) :
    (smbus_read_post_box (logWrap f) log offset out).1 =
      log ++ [[I2CMessage.write (encodeOffset offset), I2CMessage.read out.length]] :=
  smbus_log_eq f log offset out

/-- C5: the transfer is accepted iff the reported completion count equals
the expected message count 2: with `n = 2` the read succeeds and returns
the buffer, with `n ≠ 2` it fails with the incomplete-transfer message
carrying both counts ("{n}/2"), and no buffer is returned. -/
theorem smbus_read_post_box_validates_completion {σ : Type} (t : TransferFn σ)
    (s s' : σ) (offset n : Nat) (out data : List Nat)
    (htr : t s [I2CMessage.write (encodeOffset offset), I2CMessage.read out.length] =
      (s', Except.ok (n, data))) :
    ((∃ buf, (smbus_read_post_box t s offset out).2 = Except.ok buf) ↔ n = 2) ∧
    (n ≠ 2 → (smbus_read_post_box t s offset out).2 =
      Except.error ("Only " ++ Nat.repr n ++ "/2 messages were transmitted successfully ")) := by
  have h2 : ("/" : String) ++ (Nat.repr 2 ++ " messages were transmitted successfully ") =
      "/2 messages were transmitted successfully " := by decide
  simp only [smbus_read_post_box]
  rw [htr]
  by_cases hn : n = 2 <;> simp [hn, String.append_assoc, h2]

/-- Witness for C5 at `n = 1`: a stub reporting 1 of 2 messages makes the
read fail with the "1/2" message and no buffer is returned as valid. -/
theorem smbus_read_post_box_validates_completion_witness :
    (¬ ∃ buf, (smbus_read_post_box (fun s _ => (s, Except.ok (1, []))) () 0 [0, 0]).2 =
        Except.ok buf) ∧
    (smbus_read_post_box (fun s _ => (s, Except.ok (1, []))) () 0 [0, 0]).2 =
      Except.error "Only 1/2 messages were transmitted successfully " := by
  have h := smbus_read_post_box_validates_completion
    (σ := Unit) (fun s _ => (s, Except.ok (1, []))) () () 0 1 [0, 0] [] rfl
  exact ⟨fun hc => absurd (h.1.mp hc) (by decide), (h.2 (by decide)).trans rfl⟩

/-- C3: when the transport completes both messages and deposits `size`
bytes in the read buffer, `smbus_read_post_box` on an output buffer of
length `size` succeeds and returns exactly those `size` bytes unchanged. -/
theorem smbus_read_post_box_returns_bytes {σ : Type} (t : TransferFn σ)
    (s s' : σ) (offset size : Nat) (out data : List Nat)
    (hout : out.length = size) (hsize : size ≤ 8)
    (htr : t s [I2CMessage.write (encodeOffset offset), I2CMessage.read size] =
      (s', Except.ok (2, data)))
    (hlen : data.length = size) :
    smbus_read_post_box t s offset out = (s', Except.ok data) ∧ data.length = size := by
  refine ⟨?_, hlen⟩
  simp only [smbus_read_post_box]
  rw [hout, htr]
  rfl

/-- Witness for C3 at the spec's scenario A: offset 0x10, size 4, a stub
echoing `[0xDE, 0xAD, 0xBE, 0xEF]` — the read returns those 4 bytes. -/
theorem smbus_read_post_box_returns_bytes_witness :
    smbus_read_post_box (fun s _ => (s, Except.ok (2, [0xDE, 0xAD, 0xBE, 0xEF]))) () 16
        [0, 0, 0, 0] = ((), Except.ok [0xDE, 0xAD, 0xBE, 0xEF]) ∧
    ([0xDE, 0xAD, 0xBE, 0xEF] : List Nat).length = 4 :=
  smbus_read_post_box_returns_bytes (σ := Unit)
    (fun s _ => (s, Except.ok (2, [0xDE, 0xAD, 0xBE, 0xEF]))) () () 16 4
    [0, 0, 0, 0] [0xDE, 0xAD, 0xBE, 0xEF] (by decide) (by decide) rfl (by decide)

/-- Helper: when the device opens, the transport state `mainRead` reports
is the state after `smbus_read_post_box` when the size check passes, and
the untouched initial state otherwise. -/
theorem mainRead_fst {σ : Type} (openDev : String → Nat → Except String (σ × TransferFn σ))
    (bus address offset size : Nat) (s : σ) (t : TransferFn σ)
    (hopen : openDev (devicePath bus) address = Except.ok (s, t)) :
    (mainRead openDev bus address offset size).1 =
      some (if size ≤ MAX_POST_BOX_SIZE then
        (smbus_read_post_box t s offset
          ((List.replicate MAX_POST_BOX_SIZE 0).take size)).1
      else s) := by
  simp only [mainRead, hopen]
  by_cases hsz : size ≤ MAX_POST_BOX_SIZE
  · rw [if_pos hsz, if_pos hsz]
    rcases hs : smbus_read_post_box t s offset
        ((List.replicate MAX_POST_BOX_SIZE 0).take size) with ⟨s', r⟩
    rcases r with e | buf <;> rfl
  · rw [if_neg hsz, if_neg hsz]

/-- Helper: evaluation of `smbus_read_post_box` once the transfer's
outcome is known. -/
theorem smbus_eval {σ : Type} (t : TransferFn σ) (s : σ) (offset : Nat)
    (out : List Nat) (s' : σ) (r : TransferResult)
    (htr : t s [I2CMessage.write (encodeOffset offset), I2CMessage.read out.length] =
      (s', r)) :
    smbus_read_post_box t s offset out =
      match r with
      | Except.error e => (s', Except.error ("Unable to complete i2c transfer: " ++ e))
      | Except.ok (n, data) =>
          if n = 2 then (s', Except.ok data)
          else (s', Except.error ("Only " ++ Nat.repr n ++ "/" ++ Nat.repr 2 ++
            " messages were transmitted successfully ")) := by
  rcases r with e | ⟨n, data⟩ <;> (simp only [smbus_read_post_box]; rw [htr]) <;> rfl

/-- Helper: evaluation of `mainRead` when the device opens and the size
check passes. -/
theorem mainRead_ok {σ : Type} (openDev : String → Nat → Except String (σ × TransferFn σ))
    (bus address offset size : Nat) (s : σ) (t : TransferFn σ)
    (hopen : openDev (devicePath bus) address = Except.ok (s, t))
    (hsz : size ≤ MAX_POST_BOX_SIZE) :
    mainRead openDev bus address offset size =
      match smbus_read_post_box t s offset ((List.replicate MAX_POST_BOX_SIZE 0).take size) with
      | (s', Except.error e) => (some s', Except.error (readCtx offset size e))
      | (s', Except.ok buf) =>
          (some s', Except.ok (buf ++ (List.replicate MAX_POST_BOX_SIZE 0).drop size)) := by
  simp only [mainRead, hopen]
  rw [if_pos hsz]

/-- C10: when opening the device node fails, `mainRead` reports the open
failure wrapped with the device path and address — whatever the requested
size, including sizes past the bound — so the open failure takes
precedence over the size-bounds check. -/
theorem mainRead_open_error_precedence {σ : Type}
    (openDev : String → Nat → Except String (σ × TransferFn σ))
    (bus address offset size : Nat) (e : String)
    (hopen : openDev (devicePath bus) address = Except.error e) :
    mainRead openDev bus address offset size =
      (none, Except.error (openCtx (devicePath bus) address e)) := by
  simp only [mainRead]
  rw [hopen]

/-- Witness for C10 at `size = 9 > 8` with an open that fails: the open
error, not the size-bounds error, is reported. -/
theorem mainRead_open_error_precedence_witness :
    mainRead (fun _ _ => (Except.error "ENOENT" : Except String (Unit × TransferFn Unit)))
        3 2 0 9 = (none, Except.error (openCtx (devicePath 3) 2 "ENOENT")) :=
  mainRead_open_error_precedence _ 3 2 0 9 "ENOENT" rfl

/-- C2 counterexample: at `size = 9` the device open is attempted before
the size check — with an open that fails, the reported error is the open
failure, not the size-bounds message, refuting "no device handle is
opened" for oversized requests. -/
theorem mainRead_opens_device_despite_oversize :
    (mainRead (fun _ _ => (Except.error "device missing" :
        Except String (Unit × TransferFn Unit))) 0 0 0 9).2 =
      Except.error (openCtx (devicePath 0) 0 "device missing") ∧
    openCtx (devicePath 0) 0 "device missing" ≠ sizeBoundsMsg :=
  ⟨rfl, by decide⟩

/-- C2 amended: for `size > 8` with a device that opens, the request is
rejected with the size-bounds error before any bus transfer — the
transport state is returned unchanged, so `transfer` was never invoked —
but the device handle is opened before the size check, not after. -/
theorem mainRead_rejects_oversize_before_transfer {σ : Type}
    (openDev : String → Nat → Except String (σ × TransferFn σ))
    (bus address offset size : Nat) (s : σ) (t : TransferFn σ)
    (hopen : openDev (devicePath bus) address = Except.ok (s, t))
    (hsize : MAX_POST_BOX_SIZE < size) :
    mainRead openDev bus address offset size = (some s, Except.error sizeBoundsMsg) := by
  simp only [mainRead, hopen]
  rw [if_neg (show ¬ size ≤ MAX_POST_BOX_SIZE by omega)]

/-- Witness for C2's amended claim at `size = 9` on a logging transport:
the size-bounds error is returned and the log is still empty — no
transfer happened — while the device was opened. -/
theorem mainRead_rejects_oversize_before_transfer_witness :
    mainRead (fun _ _ => Except.ok ([], logWrap fun _ => Except.ok (2, [])))
        0 0 0 9 = (some [], Except.error sizeBoundsMsg) :=
  mainRead_rejects_oversize_before_transfer _ 0 0 0 9 [] _ rfl (by decide)

/-- C6: with a device that opens, `mainRead` fails with the size-bounds
message — which names the 8-byte maximum — iff the requested size exceeds
`MAX_POST_BOX_SIZE = 8`; for `size ≤ 8` that error is never produced. -/
theorem mainRead_size_bounds_iff {σ : Type}
    (openDev : String → Nat → Except String (σ × TransferFn σ))
    (bus address offset size : Nat) (s : σ) (t : TransferFn σ)
    (hopen : openDev (devicePath bus) address = Except.ok (s, t)) :
    (mainRead openDev bus address offset size).2 =
        Except.error "Maximum post-box size if 8 bytes" ↔
      MAX_POST_BOX_SIZE < size := by
  have hmsg : sizeBoundsMsg = "Maximum post-box size if 8 bytes" := by decide
  simp only [mainRead, hopen]
  by_cases hsz : size ≤ MAX_POST_BOX_SIZE
  · rw [if_pos hsz]
    rcases hs : smbus_read_post_box t s offset
        ((List.replicate MAX_POST_BOX_SIZE 0).take size) with ⟨s', r⟩
    rcases r with e | buf
    · constructor
      · intro h
        injection h with h'
        exact absurd (h'.trans hmsg.symm) (readCtx_ne_sizeBoundsMsg offset size e)
      · intro h
        omega
    · constructor
      · intro h
        simp at h
      · intro h
        omega
  · rw [if_neg hsz]
    constructor
    · intro _
      omega
    · intro _
      exact congrArg Except.error hmsg

/-- Witness for C6 at `size = 9` on a device that opens: the error is
exactly "Maximum post-box size if 8 bytes". -/
theorem mainRead_size_bounds_iff_witness :
    (mainRead (fun _ _ => Except.ok ((), (fun u _ => (u, Except.error "x") : TransferFn Unit)))
        0 0 0 9).2 = Except.error "Maximum post-box size if 8 bytes" :=
  (mainRead_size_bounds_iff _ 0 0 0 9 () _ rfl).mpr (by decide)

/-- C6 counterexample: the unconditional "size-bounds error iff size > 8"
is false — at `size = 9` with a device whose open fails, the result is the
open error, not the size-bounds error, so "size > 8" holds while "fails
with a size-bounds error" does not. -/
theorem mainRead_size_bounds_iff_counterexample :
    (8 : Nat) < 9 ∧
    (mainRead (fun _ _ => (Except.error "EIO" :
        Except String (Unit × TransferFn Unit))) 1 3 0 9).2 =
      Except.error (openCtx (devicePath 1) 3 "EIO") ∧
    openCtx (devicePath 1) 3 "EIO" ≠ sizeBoundsMsg :=
  ⟨by decide, rfl, by decide⟩

/-- C7: no stage is retried and no error swallowed — per `mainRead` call
the transport's transfer runs at most once (the logging transport's log
grows by at most one entry), and every failure is terminal and surfaced to
the caller wrapped with context: an open failure as the open error with
device path and address (no transport ever created), a transfer failure
wrapped with the i2c-transfer context and then the read context naming
offset and size, and a validation failure (completion count n ≠ 2) as the
"Only {n}/2" error wrapped with the same read context. -/
theorem mainRead_no_retry_no_swallow (f : List I2CMessage → TransferResult)
    (log : List (List I2CMessage)) (bus address offset size : Nat) (eOpen : String) :
    (∀ l, (mainRead (fun _ _ => Except.ok (log, logWrap f)) bus address offset size).1 =
        some l → l.length ≤ log.length + 1) ∧
    mainRead (fun _ _ => (Except.error eOpen :
        Except String (List (List I2CMessage) × TransferFn (List (List I2CMessage)))))
        bus address offset size =
      (none, Except.error (openCtx (devicePath bus) address eOpen)) ∧
    (∀ e, size ≤ MAX_POST_BOX_SIZE →
      f [I2CMessage.write (encodeOffset offset), I2CMessage.read size] = Except.error e →
      (mainRead (fun _ _ => Except.ok (log, logWrap f)) bus address offset size).2 =
        Except.error (readCtx offset size ("Unable to complete i2c transfer: " ++ e))) ∧
    (∀ n data, size ≤ MAX_POST_BOX_SIZE → n ≠ 2 →
      f [I2CMessage.write (encodeOffset offset), I2CMessage.read size] = Except.ok (n, data) →
      (mainRead (fun _ _ => Except.ok (log, logWrap f)) bus address offset size).2 =
        Except.error (readCtx offset size ("Only " ++ Nat.repr n ++ "/" ++ Nat.repr 2 ++
          " messages were transmitted successfully "))) := by
  refine ⟨?_, rfl, ?_, ?_⟩
  · intro l hl
    rw [mainRead_fst _ bus address offset size log (logWrap f) rfl] at hl
    injection hl with hl
    rw [← hl]
    by_cases hsz : size ≤ MAX_POST_BOX_SIZE
    · rw [if_pos hsz, smbus_log_eq]
      simp
    · rw [if_neg hsz]
      omega
  · intro e hsz hferr
    have hlen : ((List.replicate MAX_POST_BOX_SIZE 0).take size).length = size := by
      simp only [List.length_take, List.length_replicate]
      omega
    rw [mainRead_ok _ bus address offset size log (logWrap f) rfl hsz]
    have htr : logWrap f log [I2CMessage.write (encodeOffset offset),
        I2CMessage.read ((List.replicate MAX_POST_BOX_SIZE 0).take size).length] =
        (log ++ [[I2CMessage.write (encodeOffset offset),
           I2CMessage.read ((List.replicate MAX_POST_BOX_SIZE 0).take size).length]],
         Except.error e) := by
      simp only [logWrap, hlen, hferr]
    rw [smbus_eval (logWrap f) log offset ((List.replicate MAX_POST_BOX_SIZE 0).take size)
      (log ++ [[I2CMessage.write (encodeOffset offset),
        I2CMessage.read ((List.replicate MAX_POST_BOX_SIZE 0).take size).length]])
      (Except.error e) htr]
  · intro n data hsz hn hfok
    have hlen : ((List.replicate MAX_POST_BOX_SIZE 0).take size).length = size := by
      simp only [List.length_take, List.length_replicate]
      omega
    rw [mainRead_ok _ bus address offset size log (logWrap f) rfl hsz]
    have htr : logWrap f log [I2CMessage.write (encodeOffset offset),
        I2CMessage.read ((List.replicate MAX_POST_BOX_SIZE 0).take size).length] =
        (log ++ [[I2CMessage.write (encodeOffset offset),
           I2CMessage.read ((List.replicate MAX_POST_BOX_SIZE 0).take size).length]],
         Except.ok (n, data)) := by
      simp only [logWrap, hlen, hfok]
    rw [smbus_eval (logWrap f) log offset ((List.replicate MAX_POST_BOX_SIZE 0).take size)
      (log ++ [[I2CMessage.write (encodeOffset offset),
        I2CMessage.read ((List.replicate MAX_POST_BOX_SIZE 0).take size).length]])
      (Except.ok (n, data)) htr]
    simp [hn]

/-- Witness for C7 at offset 3, size 4: an open failure ("EBUSY") surfaces
as the open error; a NACKing transfer grows the log by one entry and
surfaces with both context layers; a transport reporting 1 of 2 messages
surfaces the "1/2" validation error with the read context. -/
theorem mainRead_no_retry_no_swallow_witness :
    ([[I2CMessage.write (encodeOffset 3), I2CMessage.read 4]].length ≤
      ([] : List (List I2CMessage)).length + 1) ∧
    mainRead (fun _ _ => (Except.error "EBUSY" :
        Except String (List (List I2CMessage) × TransferFn (List (List I2CMessage)))))
        1 2 3 4 =
      (none, Except.error (openCtx (devicePath 1) 2 "EBUSY")) ∧
    ((mainRead (fun _ _ => Except.ok ([], logWrap fun _ => Except.error "nack")) 1 2 3 4).2 =
      Except.error (readCtx 3 4 ("Unable to complete i2c transfer: " ++ "nack"))) ∧
    ((mainRead (fun _ _ => Except.ok ([], logWrap fun _ => Except.ok (1, []))) 1 2 3 4).2 =
      Except.error (readCtx 3 4 ("Only " ++ Nat.repr 1 ++ "/" ++ Nat.repr 2 ++
        " messages were transmitted successfully "))) :=
  ⟨(mainRead_no_retry_no_swallow (fun _ => Except.error "nack") [] 1 2 3 4 "EBUSY").1
      [[I2CMessage.write (encodeOffset 3), I2CMessage.read 4]] rfl,
   (mainRead_no_retry_no_swallow (fun _ => Except.error "nack") [] 1 2 3 4 "EBUSY").2.1,
   (mainRead_no_retry_no_swallow (fun _ => Except.error "nack") [] 1 2 3 4 "EBUSY").2.2.1
      "nack" (by decide) rfl,
   (mainRead_no_retry_no_swallow (fun _ => Except.ok (1, [])) [] 1 2 3 4 "EBUSY").2.2.2
      1 [] (by decide) (by decide) rfl⟩

/-- C8: the device path is computed from the bus index alone as the fixed
prefix "/dev/i2c-" followed by the index's decimal digits, and on the u8
index range [0, 255] distinct indices yield distinct paths. -/
theorem devicePath_form_and_injective :
    (∀ bus, devicePath bus = "/dev/i2c-" ++ Nat.repr bus) ∧
    (∀ b₁ b₂, b₁ < 256 → b₂ < 256 → devicePath b₁ = devicePath b₂ → b₁ = b₂) := by
  refine ⟨fun _ => rfl, fun b₁ b₂ h₁ h₂ h => ?_⟩
  have hd := congrArg String.data h
  simp only [devicePath, String.data_append] at hd
  have hr : (Nat.repr b₁).data = (Nat.repr b₂).data := List.append_cancel_left hd
  have hdec : decodeDec (Nat.repr b₁) = decodeDec (Nat.repr b₂) := by
    simp only [decodeDec, hr]
  rw [decodeDec_repr b₁ h₁, decodeDec_repr b₂ h₂] at hdec
  exact hdec

/-- Witness for C8 at bus index 5: the path is "/dev/i2c-" followed by
"5", and injectivity applied at 5, 5. -/
theorem devicePath_form_and_injective_witness :
    devicePath 5 = "/dev/i2c-" ++ Nat.repr 5 ∧ (5 : Nat) = 5 :=
  ⟨devicePath_form_and_injective.1 5,
   devicePath_form_and_injective.2 5 5 (by decide) (by decide) rfl⟩

/-- C9: on a successful read of `size ≤ 8` bytes the printed 8-byte buffer
is the transport's `size` bytes followed by zeros — the positions at and
past `size` were never handed to the bus transaction and keep their zero
initialization. -/
theorem mainRead_pads_with_zeros {σ : Type}
    (openDev : String → Nat → Except String (σ × TransferFn σ))
    (bus address offset size : Nat) (s s' : σ) (t : TransferFn σ) (data : List Nat)
    (hopen : openDev (devicePath bus) address = Except.ok (s, t))
    (hsz : size ≤ MAX_POST_BOX_SIZE)
    (htr : t s [I2CMessage.write (encodeOffset offset), I2CMessage.read size] =
      (s', Except.ok (2, data)))
    (hlen : data.length = size) :
    (mainRead openDev bus address offset size).2 =
      Except.ok (data ++ List.replicate (MAX_POST_BOX_SIZE - size) 0) ∧
    ∀ i, size ≤ i →
      (data ++ List.replicate (MAX_POST_BOX_SIZE - size) 0).getD i 0 = 0 := by
  have hlen' : ((List.replicate MAX_POST_BOX_SIZE 0).take size).length = size := by
    simp only [List.length_take, List.length_replicate]
    omega
  constructor
  · rw [mainRead_ok openDev bus address offset size s t hopen hsz]
    have htr' : t s [I2CMessage.write (encodeOffset offset),
        I2CMessage.read ((List.replicate MAX_POST_BOX_SIZE 0).take size).length] =
        (s', Except.ok (2, data)) := by
      rw [hlen']
      exact htr
    rw [smbus_eval t s offset ((List.replicate MAX_POST_BOX_SIZE 0).take size) s'
      (Except.ok (2, data)) htr']
    simp [List.drop_replicate]
  · intro i hi
    rw [List.getD_eq_getElem?_getD, List.getElem?_append_right (by omega), hlen,
      List.getElem?_replicate]
    split <;> rfl

/-- Witness for C9: size 4, transport echoing `[1, 2, 3, 4]` — the printed
buffer is those bytes then four zeros, and position 6 reads zero. -/
theorem mainRead_pads_with_zeros_witness :
    (mainRead (fun _ _ => Except.ok ((),
        (fun u _ => (u, Except.ok (2, [1, 2, 3, 4])) : TransferFn Unit))) 0 0 0 4).2 =
      Except.ok ([1, 2, 3, 4] ++ List.replicate (MAX_POST_BOX_SIZE - 4) 0) ∧
    ([1, 2, 3, 4] ++ List.replicate (MAX_POST_BOX_SIZE - 4) 0 : List Nat).getD 6 0 = 0 :=
  ⟨(mainRead_pads_with_zeros
      (fun _ _ => Except.ok ((), (fun u _ => (u, Except.ok (2, [1, 2, 3, 4])) : TransferFn Unit)))
      0 0 0 4 () () (fun u _ => (u, Except.ok (2, [1, 2, 3, 4]))) [1, 2, 3, 4]
      rfl (by decide) rfl (by decide)).1,
   (mainRead_pads_with_zeros
      (fun _ _ => Except.ok ((), (fun u _ => (u, Except.ok (2, [1, 2, 3, 4])) : TransferFn Unit)))
      0 0 0 4 () () (fun u _ => (u, Except.ok (2, [1, 2, 3, 4]))) [1, 2, 3, 4]
      rfl (by decide) rfl (by decide)).2 6 (by decide)⟩

end SmbPbi
